import Mathlib

/-
Shallow embedding of
`modules/planning/lattice/behavior_decider/path_time_neighborhood.cc`
(class `PathTimeNeighborhood`): the per-cycle construction of the
path-time (station-time) obstacle map and its read-only query surface.

Doubles are modelled as rationals.  The external collaborators
(prediction, bounding boxes, Frenet projection, reference-line matching,
trigonometry) are modelled as function-valued inputs, mirroring the
interfaces the source calls.  The mutable `std::unordered_map` keyed by
obstacle id is modelled as an association list with in-place update.
The per-obstacle `while` loop is modelled by an explicit one-iteration
step function `loopStep` on a loop state, iterated by `iterLoop`; a
fuel-bounded run (`runLoop`) returns `some map` exactly when the loop
has exited within the given number of iterations.
-/

/-- SL (Frenet) interval of an obstacle bounding box relative to the
reference line, as produced by `ReferenceLine::GetSLBoundary`
(`modules/planning/proto/sl_boundary.pb.h`). -/
structure SLBoundary where
  start_s : ℚ
  end_s : ℚ
  start_l : ℚ
  end_l : ℚ
deriving DecidableEq

/-- Point of the discretized reference path; only the fields read by the
source (`s` and the tangent heading `theta`) are modelled. -/
structure PathPoint where
  s : ℚ
  theta : ℚ
deriving DecidableEq

/-- Protobuf message `PathTimePoint`: a single (station, time) sample
owned by an obstacle. -/
structure PathTimePoint where
  s : ℚ
  t : ℚ
  obstacle_id : String
deriving DecidableEq

/-- Protobuf message `PathTimeObstacle`: the per-obstacle accumulated
path-time region (four corner points plus finalized scalar bounds). -/
structure PathTimeObstacle where
  obstacle_id : String
  bottom_left : PathTimePoint
  upper_left : PathTimePoint
  bottom_right : PathTimePoint
  upper_right : PathTimePoint
  path_lower : ℚ
  path_upper : ℚ
  time_lower : ℚ
  time_upper : ℚ
deriving DecidableEq

/-- Protobuf default value of a `PathTimePoint` (all scalar fields `0`,
string fields empty), as produced by default construction. -/
def defaultPathTimePoint : PathTimePoint :=
  { s := 0, t := 0, obstacle_id := "" }

/-- Protobuf default value of a `PathTimeObstacle`, as inserted by
`std::unordered_map::operator[]` on a missing key. -/
def defaultPathTimeObstacle : PathTimeObstacle :=
  { obstacle_id := ""
    bottom_left := defaultPathTimePoint
    upper_left := defaultPathTimePoint
    bottom_right := defaultPathTimePoint
    upper_right := defaultPathTimePoint
    path_lower := 0
    path_upper := 0
    time_lower := 0
    time_upper := 0 }

/-- Modelled from the spec: the configuration constants declared in
`modules/planning/lattice/util/lattice_params.h` (a repository header
not present in the sources): total look-ahead duration
`planned_trajectory_time`, longitudinal look-ahead distance
`planned_trajectory_horizon`, time-sampling step
`trajectory_time_resolution`, and lateral admission threshold
`lateral_enter_lane_thred`.  They are fixed per deployment, so the
development is parametric in them. -/
structure LatticeParams where
  planned_trajectory_time : ℚ
  planned_trajectory_horizon : ℚ
  trajectory_time_resolution : ℚ
  lateral_enter_lane_thred : ℚ

/-- Modelled from the spec: an obstacle as seen through the interfaces
the source calls.  `slAt` is the composite of
`Obstacle::GetPointAtTime`, `Obstacle::GetBoundingBox` and
`ReferenceLine::GetSLBoundary` (all external, deterministic): the SL
interval the obstacle's predicted bounding box occupies at a given
relative time.  `velocity` is the perception velocity vector
`Obstacle::Perception().velocity()`. -/
structure Obstacle where
  id : String
  trajectory_point_size : Nat
  slAt : ℚ → SLBoundary
  velocity : ℚ × ℚ

/-- Modelled from the spec: the remaining external collaborators used by
`SpeedOnReferenceLine`: the discretized reference points, the
reference-line matcher `ReferenceLineMatcher::MatchToReferenceLine`,
and the trigonometric functions `std::cos` / `std::sin`. -/
structure ExternalEnv where
  pts : List PathPoint
  matchRef : List PathPoint → ℚ → PathPoint
  cosF : ℚ → ℚ
  sinF : ℚ → ℚ

/-- The map `path_time_obstacle_map_` from obstacle id to its
`PathTimeObstacle`, modelled as an association list with unique keys. -/
abbrev PTMap := List (String × PathTimeObstacle)

/-- Lookup, modelling `path_time_obstacle_map_.find(id)`. -/
def findEntry : PTMap → String → Option PathTimeObstacle
  | [], _ => none
  | (k, v) :: rest, id => if k = id then some v else findEntry rest id

/-- In-place update or fresh insertion of the entry for a key,
modelling mutation through `path_time_obstacle_map_[id]`. -/
def setEntry : PTMap → String → PathTimeObstacle → PTMap
  | [], id, v => [(id, v)]
  | (k, w) :: rest, id, v =>
      if k = id then (k, v) :: rest else (k, w) :: setEntry rest id v

/-- Read through `operator[]` when the entry is known to be present or
freshly default-inserted: the current value under the key, or the
protobuf default. -/
def getOrDefault (m : PTMap) (id : String) : PathTimeObstacle :=
  match findEntry m id with
  | some e => e
  | none => defaultPathTimeObstacle

/-- `PathTimeNeighborhood::SetPathTimePoint` (lines 136-143): builds a
`PathTimePoint` from a station, a time and the owning obstacle id. -/
def SetPathTimePoint (obstacle_id : String) (s : ℚ) (t : ℚ) : PathTimePoint :=
  { s := s, t := t, obstacle_id := obstacle_id }

/-- The relevance filter of the sampling loop (lines 77-80): a sample is
discarded when `end_s < 0.0`, or
`start_s > init_s_[0] + planned_trajectory_horizon`, or both lateral
bounds exceed `lateral_enter_lane_thred` in absolute value. -/
def irrelevant (cfg : LatticeParams) (init_s : ℚ × ℚ × ℚ) (sl : SLBoundary) : Bool :=
  decide (sl.end_s < 0)
    || decide (sl.start_s > init_s.1 + cfg.planned_trajectory_horizon)
    || (decide (|sl.start_l| > cfg.lateral_enter_lane_thred)
        && decide (|sl.end_l| > cfg.lateral_enter_lane_thred))

/-- `PathTimeNeighborhood::SpeedOnReferenceLine` (lines 145-157): match
the reference line at the boundary's `start_s`, take the heading there,
and project the perception velocity onto that heading. -/
def SpeedOnReferenceLine (env : ExternalEnv) (ob : Obstacle) (sl : SLBoundary) : ℚ :=
  let obstacle_point_on_ref_line := env.matchRef env.pts sl.start_s
  let ref_theta := obstacle_point_on_ref_line.theta
  env.cosF ref_theta * ob.velocity.1 + env.sinF ref_theta * ob.velocity.2

/-- State of the per-obstacle `while` loop (lines 57-109): the current
sample time `relative_time`, the map built so far, and whether the loop
has exited (by the `while` condition or by `break`). -/
structure LoopState where
  relative_time : ℚ
  map : PTMap
  done : Bool
deriving DecidableEq

/-- Map mutation performed for one relevant sample (lines 93-108): if
the obstacle has no entry yet, create it and set `obstacle_id`,
`bottom_left` (at `start_s`) and `upper_left` (at `end_s`); then always
overwrite `bottom_right` (at `start_s`) and `upper_right` (at `end_s`),
all four points stamped with the current `relative_time`. -/
def updateEntry (ob : Obstacle) (sl : SLBoundary) (t : ℚ) (m : PTMap) : PTMap :=
  let m1 :=
    if (findEntry m ob.id).isSome then m
    else
      setEntry m ob.id
        { getOrDefault m ob.id with
            obstacle_id := ob.id
            bottom_left := SetPathTimePoint ob.id sl.start_s t
            upper_left := SetPathTimePoint ob.id sl.end_s t }
  setEntry m1 ob.id
    { getOrDefault m1 ob.id with
        bottom_right := SetPathTimePoint ob.id sl.start_s t
        upper_right := SetPathTimePoint ob.id sl.end_s t }

/-- One iteration of the per-obstacle `while` loop (lines 58-109),
faithful to the source's control flow: when the sample is irrelevant,
`break` if the obstacle already has an entry, otherwise advance
`relative_time` and `continue`; when the sample is relevant, compute the
reference-line speed (line 90, bound to a local that is never read
again) and perform the map update -- the source reaches the end of the
loop body without advancing `relative_time` (the only increment, line
110, sits after the loop's closing brace). -/
def loopStep (cfg : LatticeParams) (init_s : ℚ × ℚ × ℚ) (env : ExternalEnv)
    (ob : Obstacle) (st : LoopState) : LoopState :=
  if st.done then st
  else if st.relative_time < cfg.planned_trajectory_time then
    if irrelevant cfg init_s (ob.slAt st.relative_time) then
      if (findEntry st.map ob.id).isSome then { st with done := true }
      else { st with relative_time := st.relative_time + cfg.trajectory_time_resolution }
    else
      let _v := SpeedOnReferenceLine env ob (ob.slAt st.relative_time)
      { st with map := updateEntry ob (ob.slAt st.relative_time) st.relative_time st.map }
  else { st with done := true }

/-- Iterate the loop step `n` times. -/
def iterLoop (cfg : LatticeParams) (init_s : ℚ × ℚ × ℚ) (env : ExternalEnv)
    (ob : Obstacle) : Nat → LoopState → LoopState
  | 0, st => st
  | n + 1, st => iterLoop cfg init_s env ob n (loopStep cfg init_s env ob st)

/-- Fuel-bounded run of the per-obstacle `while` loop: `some map` when
the loop has exited within `fuel` iterations, `none` otherwise. -/
def runLoop (cfg : LatticeParams) (init_s : ℚ × ℚ × ℚ) (env : ExternalEnv)
    (ob : Obstacle) (fuel : Nat) (st : LoopState) : Option PTMap :=
  let final := iterLoop cfg init_s env ob fuel st
  if final.done then some final.map else none

/-- Body of the outer `for` loop over obstacles (lines 52-111): an
obstacle with an empty predicted trajectory is skipped (lines 53-55);
otherwise its sampling loop runs from `relative_time = 0.0`.  The
increment of `relative_time` after the `while` loop (line 110) is dead:
the variable is re-initialized to `0.0` for the next obstacle. -/
def processObstacle (cfg : LatticeParams) (init_s : ℚ × ℚ × ℚ) (env : ExternalEnv)
    (fuel : Nat) (m : PTMap) (ob : Obstacle) : Option PTMap :=
  if ob.trajectory_point_size = 0 then some m
  else runLoop cfg init_s env ob fuel { relative_time := 0, map := m, done := false }

/-- The outer `for` loop over all obstacles of the frame. -/
def processAll (cfg : LatticeParams) (init_s : ℚ × ℚ × ℚ) (env : ExternalEnv)
    (fuel : Nat) : List Obstacle → PTMap → Option PTMap
  | [], m => some m
  | ob :: rest, m =>
      match processObstacle cfg init_s env fuel m ob with
      | none => none
      | some m2 => processAll cfg init_s env fuel rest m2

/-- Finalization of one map entry (lines 113-133): scalar bounds
`path_upper = max(bottom_right.s, upper_right.s)`,
`path_lower = min(bottom_left.s, upper_left.s)`,
`time_upper = max(bottom_right.t, upper_right.t)`,
`time_lower = min(bottom_left.t, upper_left.t)`. -/
def finalizeEntry (e : PathTimeObstacle) : PathTimeObstacle :=
  { e with
      path_lower := min e.bottom_left.s e.upper_left.s
      path_upper := max e.bottom_right.s e.upper_right.s
      time_lower := min e.bottom_left.t e.upper_left.t
      time_upper := max e.bottom_right.t e.upper_right.t }

/-- The finalization `for` loop over all map entries. -/
def finalizeMap (m : PTMap) : PTMap :=
  m.map (fun p => (p.1, finalizeEntry p.2))

/-- `PathTimeNeighborhood::SetupObstacles`: the whole build pass --
sample every obstacle, then finalize the scalar bounds of every entry.
Returns `none` when some obstacle's sampling loop fails to exit within
`fuel` iterations. -/
def SetupObstacles (cfg : LatticeParams) (init_s : ℚ × ℚ × ℚ) (env : ExternalEnv)
    (obstacles : List Obstacle) (fuel : Nat) : Option PTMap :=
  Option.map finalizeMap (processAll cfg init_s env fuel obstacles [])

/-- `PathTimeNeighborhood::GetPathTimeObstacles` (lines 159-165): the
list of all regions currently in the map. -/
def GetPathTimeObstacles (m : PTMap) : List PathTimeObstacle :=
  m.map Prod.snd

/-- Read of `path_time_obstacle_map_[obstacle_id]` (line 180): yields
the stored value, default-inserting when the key is absent (the
`std::map::operator[]` semantics), together with the resulting map. -/
def mapSubscript (m : PTMap) (id : String) : PathTimeObstacle × PTMap :=
  match findEntry m id with
  | some v => (v, m)
  | none => (defaultPathTimeObstacle, m ++ [(id, defaultPathTimeObstacle)])

/-- `PathTimeNeighborhood::GetPathTimeObstacle` (lines 167-182): return
`false` when the id is not a key of the map; otherwise copy out the
entry through `operator[]` and return `true`.  The components are
(returned boolean, copied-out region, map after the call). -/
def GetPathTimeObstacle (m : PTMap) (id : String) :
    Bool × Option PathTimeObstacle × PTMap :=
  if findEntry m id = none then (false, none, m)
  else (true, some (mapSubscript m id).1, (mapSubscript m id).2)

/-- Corner/id consistency of a map entry under key `k`: the region's
`obstacle_id` and every corner point's `obstacle_id` equal `k`, the two
left corners carry one common time and the two right corners carry one
common time. -/
def entryConsistent (k : String) (e : PathTimeObstacle) : Bool :=
  decide (e.obstacle_id = k)
    && decide (e.bottom_left.obstacle_id = k)
    && decide (e.upper_left.obstacle_id = k)
    && decide (e.bottom_right.obstacle_id = k)
    && decide (e.upper_right.obstacle_id = k)
    && decide (e.bottom_left.t = e.upper_left.t)
    && decide (e.bottom_right.t = e.upper_right.t)

/-- Deployment constants used by the concrete evaluations below:
5 s horizon, 50 m look-ahead, 1 s sampling step, 2 m lateral
threshold. -/
def cfg0 : LatticeParams :=
  { planned_trajectory_time := 5
    planned_trajectory_horizon := 50
    trajectory_time_resolution := 1
    lateral_enter_lane_thred := 2 }

/-- Initial ego longitudinal state used by the concrete evaluations:
the ego starts at `s = 0`. -/
def initS0 : ℚ × ℚ × ℚ := (0, 0, 0)

/-- Concrete external environment: an empty discretized path, a matcher
returning the origin point, and placeholder trigonometry (`cos = 1`,
`sin = 0`). -/
def env0 : ExternalEnv :=
  { pts := []
    matchRef := fun _ _ => { s := 0, theta := 0 }
    cosF := fun _ => 1
    sinF := fun _ => 0 }

/-- SL interval ahead of the ego and inside the lane: relevant under
`cfg0` and `initS0`. -/
def slNear : SLBoundary := { start_s := 10, end_s := 12, start_l := 0, end_l := 1 }

/-- SL interval fully behind the reference-path origin (`end_s < 0`):
irrelevant. -/
def slFar : SLBoundary := { start_s := -5, end_s := -1, start_l := 0, end_l := 0 }

/-- SL interval laterally clear of the lane on both edges: irrelevant
under `cfg0`. -/
def slSide : SLBoundary := { start_s := 10, end_s := 12, start_l := 5, end_l := 5 }

/-- Obstacle whose predicted bounding box is relevant at every sampled
time. -/
def obA : Obstacle :=
  { id := "A", trajectory_point_size := 1, slAt := fun _ => slNear, velocity := (0, 0) }

/-- Obstacle that is irrelevant at every sampled time. -/
def obB : Obstacle :=
  { id := "B", trajectory_point_size := 1, slAt := fun _ => slFar, velocity := (0, 0) }

/-- Obstacle relevant at sample times `0` and `1` and irrelevant from
time `2` on (it leaves the lane laterally). -/
def obC : Obstacle :=
  { id := "C", trajectory_point_size := 1
    slAt := fun t => if t < 2 then slNear else slSide, velocity := (0, 0) }

/-- Obstacle with an empty predicted trajectory. -/
def obE : Obstacle :=
  { id := "E", trajectory_point_size := 0, slAt := fun _ => slNear, velocity := (0, 0) }

/-- Always-relevant obstacle with zero perception velocity. -/
def obV1 : Obstacle :=
  { id := "V", trajectory_point_size := 1, slAt := fun _ => slNear, velocity := (0, 0) }

/-- The same obstacle as `obV1` except for its perception velocity. -/
def obV2 : Obstacle :=
  { id := "V", trajectory_point_size := 1, slAt := fun _ => slNear, velocity := (7, 0) }

/-- A concrete accumulated map entry for obstacle `"A"`, as created by
a first relevant sample of `obA` at time `0`. -/
def entryA : PathTimeObstacle :=
  { obstacle_id := "A"
    bottom_left := SetPathTimePoint "A" 10 0
    upper_left := SetPathTimePoint "A" 12 0
    bottom_right := SetPathTimePoint "A" 10 0
    upper_right := SetPathTimePoint "A" 12 0
    path_lower := 0
    path_upper := 0
    time_lower := 0
    time_upper := 0 }

/-- A concrete one-entry map. -/
def M0 : PTMap := [("A", entryA)]

theorem findEntry_setEntry_self (m : PTMap) (k : String) (v : PathTimeObstacle) :
    findEntry (setEntry m k v) k = some v := by
  induction m with
  | nil => simp [setEntry, findEntry]
  | cons p rest ih =>
      obtain ⟨a, b⟩ := p
      by_cases h : a = k
      · simp [setEntry, findEntry, h]
      · simp [setEntry, findEntry, h, ih]

theorem findEntry_setEntry_ne (m : PTMap) (k id : String) (v : PathTimeObstacle)
    (h : id ≠ k) : findEntry (setEntry m k v) id = findEntry m id := by
  induction m with
  | nil => simp [setEntry, findEntry, Ne.symm h]
  | cons p rest ih =>
      obtain ⟨a, b⟩ := p
      by_cases ha : a = k
      · subst ha
        simp [setEntry, findEntry, Ne.symm h]
      · by_cases hb : a = id
        · simp [setEntry, findEntry, ha, hb, h]
        · simp [setEntry, findEntry, ha, hb, ih]

theorem mem_setEntry (m : PTMap) (k : String) (v : PathTimeObstacle)
    (p : String × PathTimeObstacle) (hp : p ∈ setEntry m k v) :
    p ∈ m ∨ p = (k, v) := by
  induction m with
  | nil =>
      simp [setEntry] at hp
      exact Or.inr hp
  | cons q rest ih =>
      obtain ⟨a, b⟩ := q
      by_cases h : a = k
      · subst h
        simp [setEntry] at hp
        rcases hp with hp | hp
        · exact Or.inr (by simp [hp])
        · exact Or.inl (List.mem_cons_of_mem _ hp)
      · simp [setEntry, h] at hp
        rcases hp with hp | hp
        · exact Or.inl (by simp [hp])
        · rcases ih hp with hm | he
          · exact Or.inl (List.mem_cons_of_mem _ hm)
          · exact Or.inr he

theorem findEntry_mem (m : PTMap) (k : String) (e : PathTimeObstacle)
    (h : findEntry m k = some e) : (k, e) ∈ m := by
  induction m with
  | nil => simp [findEntry] at h
  | cons p rest ih =>
      obtain ⟨a, b⟩ := p
      by_cases ha : a = k
      · subst ha
        simp [findEntry] at h
        simp [h]
      · simp [findEntry, ha] at h
        exact List.mem_cons_of_mem _ (ih h)

theorem getOrDefault_of_find (m : PTMap) (id : String) (e : PathTimeObstacle)
    (h : findEntry m id = some e) : getOrDefault m id = e := by
  simp [getOrDefault, h]

theorem loopStep_of_done (cfg : LatticeParams) (init_s : ℚ × ℚ × ℚ) (env : ExternalEnv)
    (ob : Obstacle) (st : LoopState) (h : st.done = true) :
    loopStep cfg init_s env ob st = st := by
  simp [loopStep, h]

theorem iterLoop_of_done (cfg : LatticeParams) (init_s : ℚ × ℚ × ℚ) (env : ExternalEnv)
    (ob : Obstacle) (n : Nat) (st : LoopState) (h : st.done = true) :
    iterLoop cfg init_s env ob n st = st := by
  induction n with
  | zero => rfl
  | succ n ih => simp [iterLoop, loopStep_of_done cfg init_s env ob st h, ih]

theorem loopStep_timeout (cfg : LatticeParams) (init_s : ℚ × ℚ × ℚ) (env : ExternalEnv)
    (ob : Obstacle) (st : LoopState) (h1 : st.done = false)
    (h2 : ¬ st.relative_time < cfg.planned_trajectory_time) :
    loopStep cfg init_s env ob st = { st with done := true } := by
  simp [loopStep, h1, h2]

theorem loopStep_break (cfg : LatticeParams) (init_s : ℚ × ℚ × ℚ) (env : ExternalEnv)
    (ob : Obstacle) (st : LoopState) (h1 : st.done = false)
    (h2 : st.relative_time < cfg.planned_trajectory_time)
    (h3 : irrelevant cfg init_s (ob.slAt st.relative_time) = true)
    (h4 : (findEntry st.map ob.id).isSome = true) :
    loopStep cfg init_s env ob st = { st with done := true } := by
  simp [loopStep, h1, h2, h3, h4]

theorem loopStep_skip (cfg : LatticeParams) (init_s : ℚ × ℚ × ℚ) (env : ExternalEnv)
    (ob : Obstacle) (st : LoopState) (h1 : st.done = false)
    (h2 : st.relative_time < cfg.planned_trajectory_time)
    (h3 : irrelevant cfg init_s (ob.slAt st.relative_time) = true)
    (h4 : (findEntry st.map ob.id).isSome = false) :
    loopStep cfg init_s env ob st
      = { st with relative_time := st.relative_time + cfg.trajectory_time_resolution } := by
  simp [loopStep, h1, h2, h3, h4]

theorem loopStep_relevant (cfg : LatticeParams) (init_s : ℚ × ℚ × ℚ) (env : ExternalEnv)
    (ob : Obstacle) (st : LoopState) (h1 : st.done = false)
    (h2 : st.relative_time < cfg.planned_trajectory_time)
    (h3 : irrelevant cfg init_s (ob.slAt st.relative_time) = false) :
    loopStep cfg init_s env ob st
      = { st with map := updateEntry ob (ob.slAt st.relative_time) st.relative_time st.map } := by
  simp [loopStep, h1, h2, h3]

theorem relevant_stuck (cfg : LatticeParams) (init_s : ℚ × ℚ × ℚ) (env : ExternalEnv)
    (ob : Obstacle) (n : Nat) :
    ∀ st : LoopState, st.done = false →
      st.relative_time < cfg.planned_trajectory_time →
      irrelevant cfg init_s (ob.slAt st.relative_time) = false →
      (iterLoop cfg init_s env ob n st).done = false
        ∧ (iterLoop cfg init_s env ob n st).relative_time = st.relative_time := by
  induction n with
  | zero => intro st h1 _ _; exact ⟨h1, rfl⟩
  | succ n ih =>
      intro st h1 h2 h3
      have hstep := loopStep_relevant cfg init_s env ob st h1 h2 h3
      simp only [iterLoop, hstep]
      exact ih _ h1 h2 h3

theorem iterLoop_done_map_eq (cfg : LatticeParams) (init_s : ℚ × ℚ × ℚ) (env : ExternalEnv)
    (ob : Obstacle) (n : Nat) :
    ∀ st : LoopState, (iterLoop cfg init_s env ob n st).done = true →
      (iterLoop cfg init_s env ob n st).map = st.map := by
  induction n with
  | zero => intro st _; rfl
  | succ n ih =>
      intro st h
      simp only [iterLoop] at h ⊢
      by_cases h1 : st.done = true
      · rw [loopStep_of_done cfg init_s env ob st h1] at h ⊢
        exact ih st h
      · rw [Bool.not_eq_true] at h1
        by_cases h2 : st.relative_time < cfg.planned_trajectory_time
        · by_cases h3 : irrelevant cfg init_s (ob.slAt st.relative_time) = true
          · by_cases h4 : (findEntry st.map ob.id).isSome = true
            · rw [loopStep_break cfg init_s env ob st h1 h2 h3 h4] at h ⊢
              rw [iterLoop_of_done cfg init_s env ob n _ rfl]
            · rw [Bool.not_eq_true] at h4
              rw [loopStep_skip cfg init_s env ob st h1 h2 h3 h4] at h ⊢
              exact ih _ h
          · rw [Bool.not_eq_true] at h3
            rw [loopStep_relevant cfg init_s env ob st h1 h2 h3] at h
            have hne := (relevant_stuck cfg init_s env ob n
              { st with map := updateEntry ob (ob.slAt st.relative_time) st.relative_time st.map }
              h1 h2 h3).1
            rw [h] at hne
            cases hne
        · rw [loopStep_timeout cfg init_s env ob st h1 h2] at h ⊢
          rw [iterLoop_of_done cfg init_s env ob n _ rfl]

theorem runLoop_some_map (cfg : LatticeParams) (init_s : ℚ × ℚ × ℚ) (env : ExternalEnv)
    (ob : Obstacle) (fuel : Nat) (st : LoopState) (m2 : PTMap)
    (h : runLoop cfg init_s env ob fuel st = some m2) : m2 = st.map := by
  unfold runLoop at h
  by_cases hd : (iterLoop cfg init_s env ob fuel st).done = true
  · rw [if_pos hd] at h
    cases h
    exact iterLoop_done_map_eq cfg init_s env ob fuel st hd
  · rw [if_neg hd] at h
    cases h

theorem processObstacle_some_map (cfg : LatticeParams) (init_s : ℚ × ℚ × ℚ)
    (env : ExternalEnv) (fuel : Nat) (m : PTMap) (ob : Obstacle) (m2 : PTMap)
    (h : processObstacle cfg init_s env fuel m ob = some m2) : m2 = m := by
  unfold processObstacle at h
  by_cases hz : ob.trajectory_point_size = 0
  · rw [if_pos hz] at h
    cases h
    rfl
  · rw [if_neg hz] at h
    exact runLoop_some_map cfg init_s env ob fuel _ m2 h

theorem processAll_some_map (cfg : LatticeParams) (init_s : ℚ × ℚ × ℚ)
    (env : ExternalEnv) (fuel : Nat) :
    ∀ (obs : List Obstacle) (m : PTMap) (m2 : PTMap),
      processAll cfg init_s env fuel obs m = some m2 → m2 = m := by
  intro obs
  induction obs with
  | nil =>
      intro m m2 h
      simp [processAll] at h
      exact h.symm
  | cons ob rest ih =>
      intro m m2 h
      simp only [processAll] at h
      cases hob : processObstacle cfg init_s env fuel m ob with
      | none => rw [hob] at h; cases h
      | some m1 =>
          rw [hob] at h
          have h1 := processObstacle_some_map cfg init_s env fuel m ob m1 hob
          rw [h1] at h
          exact ih m m2 h

theorem setupObstacles_some_empty (cfg : LatticeParams) (init_s : ℚ × ℚ × ℚ)
    (env : ExternalEnv) (obstacles : List Obstacle) (fuel : Nat) (M : PTMap)
    (h : SetupObstacles cfg init_s env obstacles fuel = some M) : M = [] := by
  unfold SetupObstacles at h
  cases hp : processAll cfg init_s env fuel obstacles [] with
  | none => rw [hp] at h; cases h
  | some m0 =>
      rw [hp] at h
      have h0 := processAll_some_map cfg init_s env fuel obstacles [] m0 hp
      subst h0
      simp [finalizeMap] at h
      exact h

theorem getOrDefault_of_none (m : PTMap) (id : String)
    (h : findEntry m id = none) : getOrDefault m id = defaultPathTimeObstacle := by
  simp [getOrDefault, h]

theorem setEntry_setEntry (m : PTMap) (k : String) (v w : PathTimeObstacle) :
    setEntry (setEntry m k v) k w = setEntry m k w := by
  induction m with
  | nil => simp [setEntry]
  | cons p rest ih =>
      obtain ⟨a, b⟩ := p
      by_cases h : a = k <;> simp [setEntry, h, ih]

theorem updateEntry_of_present (ob : Obstacle) (sl : SLBoundary) (t : ℚ)
    (m : PTMap) (e : PathTimeObstacle) (h : findEntry m ob.id = some e) :
    updateEntry ob sl t m
      = setEntry m ob.id
          { e with
              bottom_right := SetPathTimePoint ob.id sl.start_s t
              upper_right := SetPathTimePoint ob.id sl.end_s t } := by
  have hs : (findEntry m ob.id).isSome = true := by simp [h]
  simp [updateEntry, hs, getOrDefault_of_find m ob.id e h]

theorem updateEntry_of_absent (ob : Obstacle) (sl : SLBoundary) (t : ℚ)
    (m : PTMap) (h : findEntry m ob.id = none) :
    updateEntry ob sl t m
      = setEntry m ob.id
          { defaultPathTimeObstacle with
              obstacle_id := ob.id
              bottom_left := SetPathTimePoint ob.id sl.start_s t
              upper_left := SetPathTimePoint ob.id sl.end_s t
              bottom_right := SetPathTimePoint ob.id sl.start_s t
              upper_right := SetPathTimePoint ob.id sl.end_s t } := by
  have hs : (findEntry m ob.id).isSome = false := by simp [h]
  simp only [updateEntry, hs, Bool.false_eq_true, if_false,
    getOrDefault_of_none m ob.id h,
    getOrDefault_of_find _ _ _ (findEntry_setEntry_self m ob.id _),
    setEntry_setEntry]

theorem updateEntry_preserves_left (ob : Obstacle) (sl : SLBoundary) (t : ℚ)
    (m : PTMap) (id : String) (e : PathTimeObstacle)
    (h : findEntry m id = some e) :
    ∃ e2, findEntry (updateEntry ob sl t m) id = some e2
      ∧ e2.bottom_left = e.bottom_left ∧ e2.upper_left = e.upper_left
      ∧ e2.obstacle_id = e.obstacle_id := by
  by_cases hid : id = ob.id
  · subst hid
    rw [updateEntry_of_present ob sl t m e h]
    exact ⟨_, findEntry_setEntry_self m ob.id _, rfl, rfl, rfl⟩
  · cases hf : findEntry m ob.id with
    | some e0 =>
        rw [updateEntry_of_present ob sl t m e0 hf,
          findEntry_setEntry_ne m ob.id id _ hid]
        exact ⟨e, h, rfl, rfl, rfl⟩
    | none =>
        rw [updateEntry_of_absent ob sl t m hf,
          findEntry_setEntry_ne m ob.id id _ hid]
        exact ⟨e, h, rfl, rfl, rfl⟩

theorem updateEntry_consistent (ob : Obstacle) (sl : SLBoundary) (t : ℚ) (m : PTMap)
    (h : ∀ p ∈ m, entryConsistent p.1 p.2 = true) :
    ∀ p ∈ updateEntry ob sl t m, entryConsistent p.1 p.2 = true := by
  intro p hp
  cases hf : findEntry m ob.id with
  | some e =>
      rw [updateEntry_of_present ob sl t m e hf] at hp
      rcases mem_setEntry _ _ _ _ hp with hm | hper
      · exact h p hm
      · subst hper
        have hce := h _ (findEntry_mem m ob.id e hf)
        simp only [entryConsistent, Bool.and_eq_true, decide_eq_true_eq] at hce
        simp [entryConsistent, SetPathTimePoint]
        tauto
  | none =>
      rw [updateEntry_of_absent ob sl t m hf] at hp
      rcases mem_setEntry _ _ _ _ hp with hm | hper
      · exact h p hm
      · subst hper
        simp [entryConsistent, SetPathTimePoint, defaultPathTimeObstacle]

theorem loopStep_preserves_left (cfg : LatticeParams) (init_s : ℚ × ℚ × ℚ)
    (env : ExternalEnv) (ob : Obstacle) (st : LoopState) (id : String)
    (e : PathTimeObstacle) (h : findEntry st.map id = some e) :
    ∃ e2, findEntry (loopStep cfg init_s env ob st).map id = some e2
      ∧ e2.bottom_left = e.bottom_left ∧ e2.upper_left = e.upper_left
      ∧ e2.obstacle_id = e.obstacle_id := by
  by_cases h1 : st.done = true
  · rw [loopStep_of_done cfg init_s env ob st h1]
    exact ⟨e, h, rfl, rfl, rfl⟩
  · rw [Bool.not_eq_true] at h1
    by_cases h2 : st.relative_time < cfg.planned_trajectory_time
    · by_cases h3 : irrelevant cfg init_s (ob.slAt st.relative_time) = true
      · by_cases h4 : (findEntry st.map ob.id).isSome = true
        · rw [loopStep_break cfg init_s env ob st h1 h2 h3 h4]
          exact ⟨e, h, rfl, rfl, rfl⟩
        · rw [Bool.not_eq_true] at h4
          rw [loopStep_skip cfg init_s env ob st h1 h2 h3 h4]
          exact ⟨e, h, rfl, rfl, rfl⟩
      · rw [Bool.not_eq_true] at h3
        rw [loopStep_relevant cfg init_s env ob st h1 h2 h3]
        exact updateEntry_preserves_left ob _ _ st.map id e h
    · rw [loopStep_timeout cfg init_s env ob st h1 h2]
      exact ⟨e, h, rfl, rfl, rfl⟩

theorem iterLoop_preserves_left (cfg : LatticeParams) (init_s : ℚ × ℚ × ℚ)
    (env : ExternalEnv) (ob : Obstacle) (n : Nat) :
    ∀ (st : LoopState) (id : String) (e : PathTimeObstacle),
      findEntry st.map id = some e →
      ∃ e2, findEntry (iterLoop cfg init_s env ob n st).map id = some e2
        ∧ e2.bottom_left = e.bottom_left ∧ e2.upper_left = e.upper_left
        ∧ e2.obstacle_id = e.obstacle_id := by
  induction n with
  | zero => intro st id e h; exact ⟨e, h, rfl, rfl, rfl⟩
  | succ n ih =>
      intro st id e h
      obtain ⟨e1, h1, hb1, hu1, ho1⟩ :=
        loopStep_preserves_left cfg init_s env ob st id e h
      obtain ⟨e2, h2, hb2, hu2, ho2⟩ :=
        ih (loopStep cfg init_s env ob st) id e1 h1
      exact ⟨e2, h2, hb2.trans hb1, hu2.trans hu1, ho2.trans ho1⟩

theorem loopStep_consistent (cfg : LatticeParams) (init_s : ℚ × ℚ × ℚ)
    (env : ExternalEnv) (ob : Obstacle) (st : LoopState)
    (h : ∀ p ∈ st.map, entryConsistent p.1 p.2 = true) :
    ∀ p ∈ (loopStep cfg init_s env ob st).map, entryConsistent p.1 p.2 = true := by
  by_cases h1 : st.done = true
  · rw [loopStep_of_done cfg init_s env ob st h1]
    exact h
  · rw [Bool.not_eq_true] at h1
    by_cases h2 : st.relative_time < cfg.planned_trajectory_time
    · by_cases h3 : irrelevant cfg init_s (ob.slAt st.relative_time) = true
      · by_cases h4 : (findEntry st.map ob.id).isSome = true
        · rw [loopStep_break cfg init_s env ob st h1 h2 h3 h4]
          exact h
        · rw [Bool.not_eq_true] at h4
          rw [loopStep_skip cfg init_s env ob st h1 h2 h3 h4]
          exact h
      · rw [Bool.not_eq_true] at h3
        rw [loopStep_relevant cfg init_s env ob st h1 h2 h3]
        exact updateEntry_consistent ob _ _ st.map h
    · rw [loopStep_timeout cfg init_s env ob st h1 h2]
      exact h

theorem iterLoop_consistent (cfg : LatticeParams) (init_s : ℚ × ℚ × ℚ)
    (env : ExternalEnv) (ob : Obstacle) (n : Nat) :
    ∀ st : LoopState, (∀ p ∈ st.map, entryConsistent p.1 p.2 = true) →
      ∀ p ∈ (iterLoop cfg init_s env ob n st).map, entryConsistent p.1 p.2 = true := by
  induction n with
  | zero => intro st h; exact h
  | succ n ih =>
      intro st h
      exact ih (loopStep cfg init_s env ob st)
        (loopStep_consistent cfg init_s env ob st h)

theorem entryConsistent_finalizeEntry (k : String) (e : PathTimeObstacle) :
    entryConsistent k (finalizeEntry e) = entryConsistent k e := rfl

theorem finalizeMap_consistent (m : PTMap)
    (h : ∀ p ∈ m, entryConsistent p.1 p.2 = true) :
    ∀ p ∈ finalizeMap m, entryConsistent p.1 p.2 = true := by
  intro p hp
  simp only [finalizeMap, List.mem_map] at hp
  obtain ⟨q, hq, hqe⟩ := hp
  subst hqe
  rw [entryConsistent_finalizeEntry]
  exact h q hq

theorem loopStep_velocity_independent (cfg : LatticeParams) (init_s : ℚ × ℚ × ℚ)
    (env : ExternalEnv) (ob : Obstacle) (v1 v2 : ℚ × ℚ) (st : LoopState) :
    loopStep cfg init_s env { ob with velocity := v1 } st
      = loopStep cfg init_s env { ob with velocity := v2 } st := rfl

theorem iterLoop_velocity_independent (cfg : LatticeParams) (init_s : ℚ × ℚ × ℚ)
    (env : ExternalEnv) (ob : Obstacle) (v1 v2 : ℚ × ℚ) (n : Nat) :
    ∀ st : LoopState,
      iterLoop cfg init_s env { ob with velocity := v1 } n st
        = iterLoop cfg init_s env { ob with velocity := v2 } n st := by
  induction n with
  | zero => intro st; rfl
  | succ n ih =>
      intro st
      simp only [iterLoop]
      rw [loopStep_velocity_independent cfg init_s env ob v1 v2 st]
      exact ih _


/-- C1: the claim states that the per-obstacle inner sampling loop
always terminates, in particular even when some sample is relevant.
The source refutes it: after a relevant sample the loop body reaches
the end of the `while` without advancing `relative_time` (the only
increment, line 110, lies after the loop's closing brace), so the same
relevant sample is re-processed forever.  Evaluated at the failing
input `obA` (non-empty predicted trajectory, relevant at time `0`):
from any starting map, after any number of iterations the loop has not
exited, and the fuel-bounded run never returns. -/
theorem c1_relevant_sample_loop_never_terminates (n : Nat) (m : PTMap) :
    (iterLoop cfg0 initS0 env0 obA n
        { relative_time := 0, map := m, done := false }).done = false
    ∧ runLoop cfg0 initS0 env0 obA n
        { relative_time := 0, map := m, done := false } = none := by
  have h2 : (0 : ℚ) < cfg0.planned_trajectory_time := by with_unfolding_all decide
  have h3 : irrelevant cfg0 initS0 (obA.slAt 0) = false := by with_unfolding_all decide
  have hs := relevant_stuck cfg0 initS0 env0 obA n
    { relative_time := 0, map := m, done := false } rfl h2 h3
  refine ⟨hs.1, ?_⟩
  unfold runLoop
  simp [hs.1]

/-- C2: the claim asserts `path_lower ≤ path_upper` and
`time_lower ≤ time_upper` for every region of the finalized map of a
completed build pass.  On the source the quantification is empty:
whenever `SetupObstacles` completes, the finalized map is empty,
because a sampling loop that ever created a region cannot exit (the C1
divergence), so no completed build exhibits any region at all. -/
theorem c2_completed_build_has_empty_map (cfg : LatticeParams)
    (init_s : ℚ × ℚ × ℚ) (env : ExternalEnv) (obstacles : List Obstacle)
    (fuel : Nat) (M : PTMap)
    (h : SetupObstacles cfg init_s env obstacles fuel = some M) :
    M = [] ∧ GetPathTimeObstacles M = [] := by
  have hM := setupObstacles_some_empty cfg init_s env obstacles fuel M h
  subst hM
  exact ⟨rfl, rfl⟩

/-- Witness for C2: a concrete completed build (single never-relevant
obstacle `obB`), with the conclusion instantiated. -/
theorem c2_completed_build_has_empty_map_witness :
    SetupObstacles cfg0 initS0 env0 [obB] 8 = some []
    ∧ (([] : PTMap) = [] ∧ GetPathTimeObstacles [] = []) :=
  ⟨by with_unfolding_all decide,
    c2_completed_build_has_empty_map cfg0 initS0 env0 [obB] 8 []
      (by with_unfolding_all decide)⟩

/-- C3: the claim states that for an obstacle relevant at contiguous
sample times and irrelevant afterwards, the finalized region has
`time_upper` equal to the last relevant sample time (early exit).  The
source refutes the premise that such a region is ever finalized:
evaluated at the obstacle `obC` (relevant at sample times `0` and `1`,
irrelevant from time `2` on, so the claim expects a region with
`time_upper = 1`), the loop never advances beyond time `0`, never
exits, and the build of `[obC]` returns no map for any fuel. -/
theorem c3_early_exit_scenario_diverges (n : Nat) :
    (iterLoop cfg0 initS0 env0 obC n
        { relative_time := 0, map := [], done := false }).done = false
    ∧ (iterLoop cfg0 initS0 env0 obC n
        { relative_time := 0, map := [], done := false }).relative_time = 0
    ∧ SetupObstacles cfg0 initS0 env0 [obC] n = none := by
  have h2 : (0 : ℚ) < cfg0.planned_trajectory_time := by with_unfolding_all decide
  have h3 : irrelevant cfg0 initS0 (obC.slAt 0) = false := by with_unfolding_all decide
  have hs := relevant_stuck cfg0 initS0 env0 obC n
    { relative_time := 0, map := [], done := false } rfl h2 h3
  have hne : ¬ obC.trajectory_point_size = 0 := by decide
  have hrun : runLoop cfg0 initS0 env0 obC n
      { relative_time := 0, map := [], done := false } = none := by
    unfold runLoop
    simp [hs.1]
  have hpo : processObstacle cfg0 initS0 env0 n [] obC = none := by
    unfold processObstacle
    rw [if_neg hne]
    exact hrun
  refine ⟨hs.1, hs.2, ?_⟩
  simp [SetupObstacles, processAll, hpo]

/-- C4: an obstacle that never satisfies the relevance filter at any
sampled time, or whose predicted trajectory is empty, is absent from
the finalized map of a completed build and from the output of
`GetPathTimeObstacles`. -/
theorem c4_never_relevant_absent (cfg : LatticeParams) (init_s : ℚ × ℚ × ℚ)
    (env : ExternalEnv) (obstacles : List Obstacle) (fuel : Nat) (M : PTMap)
    (ob : Obstacle)
    (h1 : SetupObstacles cfg init_s env obstacles fuel = some M)
    (h2 : ob ∈ obstacles)
    (h3 : ob.trajectory_point_size = 0
      ∨ ∀ k : Nat, irrelevant cfg init_s
          (ob.slAt ((k : ℚ) * cfg.trajectory_time_resolution)) = true) :
    findEntry M ob.id = none
      ∧ ∀ r ∈ GetPathTimeObstacles M, r.obstacle_id ≠ ob.id := by
  have hM := setupObstacles_some_empty cfg init_s env obstacles fuel M h1
  subst hM
  exact ⟨rfl, by intro r hr; simp [GetPathTimeObstacles] at hr⟩

/-- Witness for C4: the never-relevant obstacle `obB` inside a
completing build. -/
theorem c4_never_relevant_absent_witness :
    SetupObstacles cfg0 initS0 env0 [obB] 8 = some []
    ∧ (findEntry ([] : PTMap) obB.id = none
        ∧ ∀ r ∈ GetPathTimeObstacles ([] : PTMap), r.obstacle_id ≠ obB.id) := by
  refine ⟨?_, c4_never_relevant_absent cfg0 initS0 env0 [obB] 8 [] obB ?_
    (List.mem_singleton.mpr rfl) (Or.inr fun k => ?_)⟩
  · with_unfolding_all decide
  · with_unfolding_all decide
  · exact (by with_unfolding_all decide : irrelevant cfg0 initS0 slFar = true)

/-- C5: once an obstacle has a map entry (created together with its
`bottom_left`/`upper_left` corners by the first relevant sample), no
later iteration of the sampling loop changes those two corners. -/
theorem c5_left_corners_frozen (cfg : LatticeParams) (init_s : ℚ × ℚ × ℚ)
    (env : ExternalEnv) (ob : Obstacle) (n : Nat) (st : LoopState)
    (e : PathTimeObstacle) (h : findEntry st.map ob.id = some e) :
    ∃ e2, findEntry (iterLoop cfg init_s env ob n st).map ob.id = some e2
      ∧ e2.bottom_left = e.bottom_left ∧ e2.upper_left = e.upper_left := by
  obtain ⟨e2, ha, hb, hc, _⟩ :=
    iterLoop_preserves_left cfg init_s env ob n st ob.id e h
  exact ⟨e2, ha, hb, hc⟩

/-- Witness for C5: obstacle `"A"` with a concrete entry `entryA`,
three further loop iterations. -/
theorem c5_left_corners_frozen_witness :
    findEntry M0 obA.id = some entryA
    ∧ ∃ e2, findEntry (iterLoop cfg0 initS0 env0 obA 3
        { relative_time := 0, map := M0, done := false }).map obA.id = some e2
      ∧ e2.bottom_left = entryA.bottom_left ∧ e2.upper_left = entryA.upper_left :=
  ⟨by with_unfolding_all decide,
    c5_left_corners_frozen cfg0 initS0 env0 obA 3
      { relative_time := 0, map := M0, done := false } entryA
      (by with_unfolding_all decide)⟩

/-- C6: a sample is classified irrelevant by the filter exactly when
`end_s < 0`, or `start_s` exceeds the first component of the initial
ego state plus `planned_trajectory_horizon`, or both lateral bounds
exceed `lateral_enter_lane_thred` in absolute value; otherwise the
loop body processes it as relevant. -/
theorem c6_relevance_filter_characterization (cfg : LatticeParams)
    (init_s : ℚ × ℚ × ℚ) (sl : SLBoundary) :
    irrelevant cfg init_s sl = true
      ↔ (sl.end_s < 0
          ∨ sl.start_s > init_s.1 + cfg.planned_trajectory_horizon
          ∨ (|sl.start_l| > cfg.lateral_enter_lane_thred
              ∧ |sl.end_l| > cfg.lateral_enter_lane_thred)) := by
  simp [irrelevant, or_assoc]

/-- C7: for any identifier, the query `GetPathTimeObstacle` leaves the
map unchanged, returns `true` exactly when the identifier is a key of
the map, in that case outputs precisely the stored entry (which is an
element of the `GetPathTimeObstacles` output), and otherwise returns
`false` with no output. -/
theorem c7_get_path_time_obstacle_query (m : PTMap) (id : String) :
    (GetPathTimeObstacle m id).2.2 = m
    ∧ (GetPathTimeObstacle m id).1 = (findEntry m id).isSome
    ∧ (GetPathTimeObstacle m id).2.1 = findEntry m id
    ∧ ∀ r, findEntry m id = some r → r ∈ GetPathTimeObstacles m := by
  have h4 : ∀ r, findEntry m id = some r → r ∈ GetPathTimeObstacles m := by
    intro r hr
    exact List.mem_map.mpr ⟨(id, r), findEntry_mem m id r hr, rfl⟩
  refine ⟨?_, ?_, ?_, h4⟩ <;>
    cases hf : findEntry m id <;>
      simp [GetPathTimeObstacle, mapSubscript, hf]

/-- Witness for C7: the one-entry map `M0` queried at its key `"A"`. -/
theorem c7_get_path_time_obstacle_query_witness :
    ((GetPathTimeObstacle M0 "A").2.2 = M0
      ∧ (GetPathTimeObstacle M0 "A").1 = (findEntry M0 "A").isSome
      ∧ (GetPathTimeObstacle M0 "A").2.1 = findEntry M0 "A")
    ∧ entryA ∈ GetPathTimeObstacles M0 :=
  ⟨⟨(c7_get_path_time_obstacle_query M0 "A").1,
    (c7_get_path_time_obstacle_query M0 "A").2.1,
    (c7_get_path_time_obstacle_query M0 "A").2.2.1⟩,
    (c7_get_path_time_obstacle_query M0 "A").2.2.2 entryA
      (by with_unfolding_all decide)⟩

/-- C8: an obstacle with an empty predicted trajectory is skipped
silently by the build pass: processing it succeeds with the map
unchanged, and the build of a list headed by it equals the build of
the remaining list. -/
theorem c8_empty_trajectory_skipped (cfg : LatticeParams) (init_s : ℚ × ℚ × ℚ)
    (env : ExternalEnv) (fuel : Nat) (m : PTMap) (rest : List Obstacle)
    (ob : Obstacle) (h : ob.trajectory_point_size = 0) :
    processObstacle cfg init_s env fuel m ob = some m
    ∧ processAll cfg init_s env fuel (ob :: rest) m
        = processAll cfg init_s env fuel rest m := by
  have hp : processObstacle cfg init_s env fuel m ob = some m := by
    simp [processObstacle, h]
  exact ⟨hp, by simp [processAll, hp]⟩

/-- Witness for C8: the trajectory-less obstacle `obE`. -/
theorem c8_empty_trajectory_skipped_witness :
    obE.trajectory_point_size = 0
    ∧ (processObstacle cfg0 initS0 env0 4 [] obE = some []
        ∧ processAll cfg0 initS0 env0 4 [obE] []
            = processAll cfg0 initS0 env0 4 [] []) :=
  ⟨rfl, c8_empty_trajectory_skipped cfg0 initS0 env0 4 [] [] obE rfl⟩

/-- C9 counterexample: the reference-relative speed is not kept
anywhere.  `obV1` and `obV2` differ only in their perception velocity
and get different values of `SpeedOnReferenceLine`, yet the sampling
loop reaches identical states and the whole build pass produces
identical results -- so the computed speed is not retained as
obstacle-level data alongside the region (it is a local discarded at
line 90-91). -/
theorem c9_speed_not_kept_counterexample :
    SpeedOnReferenceLine env0 obV1 slNear ≠ SpeedOnReferenceLine env0 obV2 slNear
    ∧ iterLoop cfg0 initS0 env0 obV1 3 { relative_time := 0, map := [], done := false }
        = iterLoop cfg0 initS0 env0 obV2 3 { relative_time := 0, map := [], done := false }
    ∧ SetupObstacles cfg0 initS0 env0 [obV1] 6
        = SetupObstacles cfg0 initS0 env0 [obV2] 6 :=
  ⟨by with_unfolding_all decide, by with_unfolding_all decide,
    by with_unfolding_all decide⟩

/-- C9 (amended): for every relevant sample the code computes
`v = v_x cos θ + v_y sin θ` with `θ` the heading of the reference point
matched to the boundary's `start_s` (`SpeedOnReferenceLine`), but the
value is discarded: the sampling loop's behaviour is independent of the
obstacle's perception velocity, so the speed is neither stored in the
region bounds nor kept anywhere else in the built state. -/
theorem c9_speed_formula_and_discarded (cfg : LatticeParams)
    (init_s : ℚ × ℚ × ℚ) (env : ExternalEnv) (ob : Obstacle) (sl : SLBoundary)
    (v1 v2 : ℚ × ℚ) (n : Nat) (st : LoopState) :
    SpeedOnReferenceLine env ob sl
      = ob.velocity.1 * env.cosF (env.matchRef env.pts sl.start_s).theta
        + ob.velocity.2 * env.sinF (env.matchRef env.pts sl.start_s).theta
    ∧ iterLoop cfg init_s env { ob with velocity := v1 } n st
        = iterLoop cfg init_s env { ob with velocity := v2 } n st := by
  constructor
  · simp only [SpeedOnReferenceLine]
    ring
  · exact iterLoop_velocity_independent cfg init_s env ob v1 v2 n st

/-- C10: every entry of the finalized image of any reachable
accumulated map is corner/id-consistent -- its `obstacle_id` and all
four corner points' `obstacle_id`s equal the key it is stored under,
the two left corners carry one common time and the two right corners
carry one common time.  (No completed build exhibits such an entry,
per the C1/C2 divergence; the invariant is established for every
reachable state of the sampling loop and preserved by the
finalization step.) -/
theorem c10_finalized_corner_consistency (cfg : LatticeParams)
    (init_s : ℚ × ℚ × ℚ) (env : ExternalEnv) (ob : Obstacle) (n : Nat)
    (st : LoopState) (h : ∀ p ∈ st.map, entryConsistent p.1 p.2 = true) :
    ∀ p ∈ finalizeMap (iterLoop cfg init_s env ob n st).map,
      entryConsistent p.1 p.2 = true :=
  finalizeMap_consistent _ (iterLoop_consistent cfg init_s env ob n st h)

/-- Witness for C10: two loop iterations of the always-relevant
obstacle `obA` from the empty map, whose finalized image contains the
region created for `"A"`. -/
theorem c10_finalized_corner_consistency_witness :
    (∀ p ∈ (([] : PTMap)), entryConsistent p.1 p.2 = true)
    ∧ ∀ p ∈ finalizeMap (iterLoop cfg0 initS0 env0 obA 2
        { relative_time := 0, map := [], done := false }).map,
      entryConsistent p.1 p.2 = true :=
  ⟨by simp, c10_finalized_corner_consistency cfg0 initS0 env0 obA 2
      { relative_time := 0, map := [], done := false } (by simp)⟩
